import Mathlib

/-!
Verification development for the chrome-devtools-mcp repository.

The definitions below are a shallow embedding of the TypeScript source:
* `src/browserManager.ts` — `isRecoverableBrowserConnectError`,
  `connectOrLaunchBrowser`;
* `src/main.ts` — `registerTool`'s dispatch callback, `configCacheKey`,
  the `/mcp` session-cache handler;
* `src/browser.ts` — `enableStealthMode`;
* the `PageCollector` / `NetworkCollector` module — per-page event
  buffers reset or trimmed at navigation boundaries.
JavaScript objects that matter only by identity (browsers, pages, array
storage) are modelled as natural-number addresses into explicit heaps, so
that in-place mutation and reference sharing are expressible.
-/

namespace ChromeDevtoolsMcp

/-! ## String helpers (substring search, case folding, line heads) -/

/-- Does the list start with the given pattern?  (Mirrors the character
comparison JavaScript performs inside `String.prototype.includes`.) -/
def listLeads : List Char → List Char → Bool
  | [], _ => true
  | _ :: _, [] => false
  | p :: ps, c :: cs => p == c && listLeads ps cs

/-- Does `pat` occur contiguously inside `l`? -/
def listHasSub (pat : List Char) : List Char → Bool
  | [] => pat.isEmpty
  | c :: rest => listLeads pat (c :: rest) || listHasSub pat rest

/-- `s.includes(pat)` of JavaScript, on Lean strings. -/
def containsSubstr (s pat : String) : Bool :=
  listHasSub pat.data s.data

/-- `s.startsWith(pat)` of JavaScript, on Lean strings. -/
def strStartsWith (s pat : String) : Bool :=
  listLeads pat.data s.data

/-! ## Error values (`src/browserManager.ts`)

JavaScript error values reachable by `isRecoverableBrowserConnectError`
are modelled as a heap of error objects plus a value that is either an
object address, a string, or some other primitive.  `cause` fields hold
arbitrary values, so cyclic cause chains are representable (an object's
`cause` may point back at an earlier address). -/

/-- A JavaScript value as seen by the classifier: an object (by heap
address), a string primitive, or any other primitive recorded only by
its truthiness. -/
inductive JsVal where
  | obj (addr : Nat)
  | str (s : String)
  | prim (truthy : Bool)
deriving DecidableEq

/-- One JavaScript object as inspected by the classifier: an optional
`code` property, an optional `cause` property, whether it is an `Error`
instance, and its `message`. -/
structure ErrObj where
  code : Option String
  cause : Option JsVal
  isError : Bool
  message : String

/-- A heap of error objects; `JsVal.obj a` refers to `h[a]?`. -/
abbrev ErrHeap := List ErrObj

/-- `value` is truthy in JavaScript.  Objects are always truthy, the
empty string is falsy. -/
def truthy : JsVal → Bool
  | .obj _ => true
  | .str s => !s.isEmpty
  | .prim b => b

/-- The `recoverableCodes` set of `isRecoverableBrowserConnectError`. -/
def recoverableCodes : List String :=
  ["ECONNREFUSED", "ERR_CONNECTION_REFUSED", "ECONNRESET",
   "EHOSTUNREACH", "ENOTFOUND", "ETIMEDOUT"]

/-- `typeof code === 'string' && recoverableCodes.has(code)`. -/
def codeIsRecoverable : Option String → Bool
  | some c => recoverableCodes.contains c
  | none => false

/-- JavaScript `toLowerCase` on the ASCII range, character by
character.  (Core `String.toLower` is extensionally the same function
but is defined by well-founded recursion on byte positions, which the
kernel cannot evaluate; the classifier's messages are ASCII.) -/
def strToLower (s : String) : String :=
  String.mk (s.data.map Char.toLower)

/-- The lower-cased message patterns tested by the classifier. -/
def msgPatterns : List String :=
  ["connection refused", "failed to fetch", "target closed",
   "connection closed", "timed out", "404"]

/-- The disjunction of `message.toLowerCase().includes(p)` over the six
patterns. -/
def messageMatches (m : String) : Bool :=
  msgPatterns.any (fun p => containsSubstr (strToLower m) p)

/-- Addresses of the heap not yet recorded in `seen`; the traversal of
`hasRecoverableCode` shrinks this set at every recursive call, which is
its termination measure. -/
def unseenAddrs (h : ErrHeap) (seen : List JsVal) : Finset Nat :=
  (Finset.range h.length).filter (fun a => JsVal.obj a ∉ seen)

/-- The inner `hasRecoverableCode` closure of
`isRecoverableBrowserConnectError` (src/browserManager.ts:46-88): falsy
or already-seen values are rejected; an object is added to `seen`, its
`code` is compared against the recoverable set, its `cause` is visited
recursively, and an `Error` instance falls back to message patterns;
bare strings are tested against the message patterns.  The mutable
`seen` set is threaded down the (single) recursive call, which is
equivalent because every object has at most one `cause`. -/
def hasRecoverableCode (h : ErrHeap) (seen : List JsVal) (v : JsVal) : Bool :=
  if hcond : truthy v = false ∨ v ∈ seen then false
  else
    match v with
    | .obj a =>
      match hget : h[a]? with
      | none => false
      | some o =>
        if codeIsRecoverable o.code then true
        else if (match o.cause with
                 | some c => truthy c && hasRecoverableCode h (JsVal.obj a :: seen) c
                 | none => false) then true
        else if o.isError then messageMatches o.message else false
    | .str s => messageMatches s
    | .prim _ => false
termination_by (unseenAddrs h seen).card
decreasing_by
  all_goals
  · have hnseen : JsVal.obj a ∉ seen := fun hmem => hcond (Or.inr hmem)
    have halt : a < h.length := (List.getElem?_eq_some.mp hget).1
    refine Finset.card_lt_card ⟨fun x hx => ?_, fun hsub => ?_⟩
    · simp only [unseenAddrs, Finset.mem_filter, Finset.mem_range, List.mem_cons] at hx ⊢
      exact ⟨hx.1, fun hmem => hx.2 (Or.inr hmem)⟩
    · have ha : a ∈ unseenAddrs h seen := by
        simp only [unseenAddrs, Finset.mem_filter, Finset.mem_range]
        exact ⟨halt, hnseen⟩
      have ha' := hsub ha
      simp [unseenAddrs] at ha'

/-- `isRecoverableBrowserConnectError(error)`
(src/browserManager.ts:35-91): runs the traversal with a fresh `seen`
set. -/
def isRecoverableBrowserConnectError (h : ErrHeap) (e : JsVal) : Bool :=
  hasRecoverableCode h [] e

/-- Companion traversal that records whether some object visited along
the (cycle-protected) cause chain carries a recoverable `code`.  It
mirrors the traversal order of `hasRecoverableCode` exactly, so "the
cause chain" means precisely the objects that traversal visits. -/
def chainHasCode (h : ErrHeap) (seen : List JsVal) (v : JsVal) : Bool :=
  if hcond : truthy v = false ∨ v ∈ seen then false
  else
    match v with
    | .obj a =>
      match hget : h[a]? with
      | none => false
      | some o =>
        codeIsRecoverable o.code ||
        (match o.cause with
         | some c => truthy c && chainHasCode h (JsVal.obj a :: seen) c
         | none => false)
    | .str _ => false
    | .prim _ => false
termination_by (unseenAddrs h seen).card
decreasing_by
  all_goals
  · have hnseen : JsVal.obj a ∉ seen := fun hmem => hcond (Or.inr hmem)
    have halt : a < h.length := (List.getElem?_eq_some.mp hget).1
    refine Finset.card_lt_card ⟨fun x hx => ?_, fun hsub => ?_⟩
    · simp only [unseenAddrs, Finset.mem_filter, Finset.mem_range, List.mem_cons] at hx ⊢
      exact ⟨hx.1, fun hmem => hx.2 (Or.inr hmem)⟩
    · have ha : a ∈ unseenAddrs h seen := by
        simp only [unseenAddrs, Finset.mem_filter, Finset.mem_range]
        exact ⟨halt, hnseen⟩
      have ha' := hsub ha
      simp [unseenAddrs] at ha'

/-! ## `connectOrLaunchBrowser` (src/browserManager.ts:93-140)

Browser handles are natural numbers.  The injected `connectExisting` /
`launchBrowser` collaborators are abstracted by their outcomes: the
connect attempt either yields a handle or throws an error value, and a
launch yields a handle.  The embedding returns, besides the result, the
number of launch calls and the log lines emitted. -/

/-- Result of one `connectOrLaunchBrowser` run: the returned handle or
the rethrown error, how many times the launch collaborator was invoked,
and the diagnostic lines written through `options.log`. -/
structure BrokerOutcome where
  result : Except JsVal Nat
  launchCount : Nat
  logs : List String

/-- `error instanceof Error ? error.message : String(error)` — the text
interpolated into the fallback log line.  `String(x)` rendering of
non-Error objects and primitives is abstracted ("[object Object]" for
plain objects); no claim depends on it. -/
def errMessageForLog (h : ErrHeap) (e : JsVal) : String :=
  match e with
  | .obj a =>
    match h[a]? with
    | some o => if o.isError then o.message else "[object Object]"
    | none => "[object Object]"
  | .str s => s
  | .prim _ => "[primitive]"

/-- `options.currentBrowser && options.currentBrowser.connected ?
options.currentBrowser : undefined` — the initial `browser` binding of
`connectOrLaunchBrowser`. -/
def connectedCurrent (currentBrowser : Option (Nat × Bool)) : Option Nat :=
  match currentBrowser with
  | some (b, connected) => if connected then some b else none
  | none => none

/-- The body of `connectOrLaunchBrowser` after the `browser` binding has
been computed (`browser0`): when `browserUrl` is set and no handle is
held, try to connect — a recoverable failure logs one "Unable to
connect…" line and falls through to the launch step, a non-recoverable
failure is rethrown; the final `if (!browser)` launches. -/
def brokerResolve (h : ErrHeap) (browserUrl : Option String) (browser0 : Option Nat)
    (connectOutcome : Except JsVal Nat) (launchHandle : Nat) : BrokerOutcome :=
  match browserUrl, browser0 with
  | some url, none =>
    (match connectOutcome with
     | .ok b => { result := .ok b, launchCount := 0, logs := [] }
     | .error e =>
       if isRecoverableBrowserConnectError h e then
         { result := .ok launchHandle, launchCount := 1,
           logs := ["Unable to connect to Chrome at " ++ url ++ ": "
             ++ errMessageForLog h e ++ ". Launching a managed browser instead."] }
       else
         { result := .error e, launchCount := 0, logs := [] })
  | _, some b => { result := .ok b, launchCount := 0, logs := [] }
  | none, none => { result := .ok launchHandle, launchCount := 1, logs := [] }

/-- `connectOrLaunchBrowser(options)` (src/browserManager.ts:93-140):
compute the reusable connected handle, then resolve. -/
def connectOrLaunchBrowser (h : ErrHeap) (browserUrl : Option String)
    (currentBrowser : Option (Nat × Bool))
    (connectOutcome : Except JsVal Nat) (launchHandle : Nat) : BrokerOutcome :=
  brokerResolve h browserUrl (connectedCurrent currentBrowser) connectOutcome launchHandle

/-! ## `PageCollector` / `NetworkCollector`

Pages and array storage are addresses; `pageRef` is the
`storage : WeakMap<Page, T[]>` association from page to the address of
its backing array, and `heap` maps array addresses to contents.
In-place mutation (push, `length = 0`, `splice`) updates `heap` at a
fixed address, never `pageRef`. -/

/-- Collector state: the page-to-array association plus the array heap. -/
structure CollectorState (T : Type) where
  pageRef : List (Nat × Nat)
  heap : List (List T)
deriving DecidableEq

/-- Contents of the array at address `r` (empty for a dangling ref). -/
def getArr {T : Type} (heap : List (List T)) (r : Nat) : List T :=
  heap.getD r []

/-- `#initializePage`: a page already in storage is skipped; otherwise a
fresh empty array is allocated and associated with the page. -/
def initializePage {T : Type} (s : CollectorState T) (page : Nat) : CollectorState T :=
  if (s.pageRef.lookup page).isSome then s
  else { pageRef := (page, s.heap.length) :: s.pageRef, heap := s.heap ++ [[]] }

/-- The `collector` closure handed to the listener factory:
`stored.push(value)` — append in place to the page's array. -/
def collectEvent {T : Type} (s : CollectorState T) (page : Nat) (e : T) : CollectorState T :=
  match s.pageRef.lookup page with
  | none => s
  | some r => { s with heap := s.heap.set r (getArr s.heap r ++ [e]) }

/-- `PageCollector.cleanupAfterNavigation`: `collection.length = 0` —
clear the array in place, keeping the reference alive. -/
def cleanupAfterNavigation {T : Type} (s : CollectorState T) (page : Nat) : CollectorState T :=
  match s.pageRef.lookup page with
  | none => s
  | some r => { s with heap := s.heap.set r [] }

/-- The `framenavigated` listener: only reset the storage on main frame
navigation; the reset policy itself (`cleanup`) is the dynamically
dispatched `cleanupAfterNavigation` of the concrete collector class. -/
def handleFrameNavigated {T : Type} (cleanup : CollectorState T → Nat → CollectorState T)
    (s : CollectorState T) (page : Nat) (isMainFrame : Bool) : CollectorState T :=
  if isMainFrame then cleanup s page else s

/-- `getData(page)` returns `this.storage.get(page) ?? []`; the value of
interest is the array reference, `none` meaning a fresh empty array. -/
def getDataRef {T : Type} (s : CollectorState T) (page : Nat) : Option Nat :=
  s.pageRef.lookup page

/-- `getData(page)` observed as a value (the contents of the returned
array). -/
def getDataValue {T : Type} (s : CollectorState T) (page : Nat) : List T :=
  match getDataRef s page with
  | some r => getArr s.heap r
  | none => []

/-- One buffered `HTTPRequest` as inspected by
`NetworkCollector.cleanupAfterNavigation`: an identifier, whether it is
a navigation request, and whether `request.frame() === page.mainFrame()`
at cleanup time. -/
structure NetReq where
  requestId : Nat
  isNavigationRequest : Bool
  frameIsMainFrame : Bool
deriving DecidableEq

/-- The `findLastIndex` predicate: a main-frame navigation request. -/
def navRequestPred (r : NetReq) : Bool :=
  if r.frameIsMainFrame then r.isNavigationRequest else false

/-- Index of the last element satisfying `p`, if any. -/
def lastIdxAux {α : Type} (p : α → Bool) : List α → Option Nat
  | [] => none
  | a :: as =>
    match lastIdxAux p as with
    | some i => some (i + 1)
    | none => if p a then some 0 else none

/-- JavaScript `Array.prototype.findLastIndex`: the index of the last
match, or `-1`. -/
def jsFindLastIndex {α : Type} (p : α → Bool) (l : List α) : Int :=
  match lastIdxAux p l with
  | some i => (i : Int)
  | none => -1

/-- The value computed by `NetworkCollector.cleanupAfterNavigation` for
one buffer: `requests.splice(0, Math.max(lastRequestIdx, 0))` removes
that many leading entries in place, keeping everything from the last
main-frame navigation request (inclusive) onward. -/
def networkRetain (l : List NetReq) : List NetReq :=
  let lastRequestIdx := jsFindLastIndex navRequestPred l
  l.drop (max lastRequestIdx 0).toNat

/-- `NetworkCollector.cleanupAfterNavigation(page)`: trim the page's
array in place (an untracked page splices a fresh `[]`, leaving the
state unchanged). -/
def networkCleanupAfterNavigation (s : CollectorState NetReq) (page : Nat) : CollectorState NetReq :=
  match s.pageRef.lookup page with
  | none => s
  | some r => { s with heap := s.heap.set r (networkRetain (getArr s.heap r)) }

/-! ## The registered tool callback (src/main.ts:243-288)

The asynchronous stages are abstracted by their outcomes: `getContext`
and `tool.handler` either complete or throw, `response.handle` either
yields content blocks or throws.  The callback body is
`guard = await toolMutex.acquire(); try { … } finally { guard.dispose() }`
with an inner try/catch around `response.handle` only. -/

/-- A structured tool reply: content texts plus the `isError` flag. -/
structure ToolReply where
  contentTexts : List String
  isError : Bool
deriving DecidableEq

/-- What one invocation of the registered callback produces: either a
returned reply or an error propagated out of the callback, plus whether
the mutex guard was disposed. -/
structure DispatchResult where
  outcome : Except String ToolReply
  guardDisposed : Bool

/-- The registered tool callback.  `contextOutcome` is `await
getContext()`, `handlerOutcome` is `await tool.handler(...)`,
`finalizeOutcome` is `await response.handle(...)`.  Only the
finalization is wrapped in a catch that builds an `isError` reply; a
context or handler error unwinds through the outer try, whose `finally`
disposes the guard and then rethrows. -/
def toolCallback (contextOutcome : Except String Unit)
    (handlerOutcome : Except String Unit)
    (finalizeOutcome : Except String (List String)) : DispatchResult :=
  match contextOutcome with
  | .error e => { outcome := .error e, guardDisposed := true }
  | .ok _ =>
    match handlerOutcome with
    | .error e => { outcome := .error e, guardDisposed := true }
    | .ok _ =>
      match finalizeOutcome with
      | .ok content =>
        { outcome := .ok { contentTexts := content, isError := false },
          guardDisposed := true }
      | .error e =>
        { outcome := .ok { contentTexts := [e], isError := true },
          guardDisposed := true }

/-! ## `enableStealthMode` (src/browser.ts:114-140)

The handle records the `STEALTH_SYMBOL` flag, its open pages, the pages
stealth has been applied to, and how many `targetcreated` subscriptions
were installed. -/

/-- A browser handle as seen by the stealth installer. -/
structure BrowserHandle where
  stealth : Bool
  pages : List Nat
  stealthAppliedTo : List Nat
  targetCreatedListeners : Nat
deriving DecidableEq

/-- `enableStealthMode(browserInstance)`: return immediately when the
per-handle symbol flag is set; otherwise set it, apply stealth to every
existing page, and subscribe one `targetcreated` listener. -/
def enableStealthMode (b : BrowserHandle) : BrowserHandle :=
  if b.stealth then b
  else
    { b with
        stealth := true,
        stealthAppliedTo := b.stealthAppliedTo ++ b.pages,
        targetCreatedListeners := b.targetCreatedListeners + 1 }

/-! ## `configCacheKey` (src/main.ts:126-135)

A configuration is its list of defined properties in object insertion
order; values are strings, booleans, or the `{width, height}` viewport
object.  `configCacheKey` normalizes the viewport, sorts the entries by
key, and serializes.  (`localeCompare` on ASCII keys is a total order;
the embedding uses Lean's string order — order-independence holds for
any total order.) -/

/-- A defined configuration property value. -/
inductive CVal where
  | str (s : String)
  | boolean (b : Bool)
  | vp (width height : Nat)
deriving DecidableEq

/-- `normalizeViewport`: the object form becomes its `WIDTHxHEIGHT`
string; the string form passes through. -/
def normalizeViewportVal : CVal → CVal
  | .vp w ht => .str (toString w ++ "x" ++ toString ht)
  | v => v

/-- `{...config, viewport: normalizeViewport(config.viewport)}` followed
by the defined-entries filter, on the entry list: the viewport entry is
normalized in place, every other defined entry passes through. -/
def normalizedEntries (c : List (String × CVal)) : List (String × CVal) :=
  c.map (fun kv => if kv.1 = "viewport" then (kv.1, normalizeViewportVal kv.2) else kv)

/-- Comparison used for the sort: by property key. -/
def entryKeyLe (a b : String × CVal) : Prop := a.1 ≤ b.1

instance : DecidableRel entryKeyLe := fun a b => inferInstanceAs (Decidable (a.1 ≤ b.1))

instance : IsTotal (String × CVal) entryKeyLe := ⟨fun a b => le_total a.1 b.1⟩

instance : IsTrans (String × CVal) entryKeyLe := ⟨fun _ _ _ hab hbc => le_trans hab hbc⟩

/-- Strict version of the key comparison, used to show the sorted entry
list is a canonical form when keys are distinct. -/
def entryKeyLt (a b : String × CVal) : Prop := a.1 < b.1

instance : IsAntisymm (String × CVal) entryKeyLt :=
  ⟨fun _ _ h1 h2 => absurd h2 (not_lt.mpr (le_of_lt h1))⟩

/-- `JSON.stringify` of one value (string escaping elided — no claim
depends on the rendering being injective). -/
def stringifyCVal : CVal → String
  | .str s => "\x22" ++ s ++ "\x22"
  | .boolean b => if b then "true" else "false"
  | .vp w ht => "\x22" ++ toString w ++ "x" ++ toString ht ++ "\x22"

/-- `JSON.stringify(normalizedEntries)`: a JSON array of `[key, value]`
pairs. -/
def stringifyEntries (l : List (String × CVal)) : String :=
  "[" ++ String.intercalate ","
    (l.map (fun kv => "[\x22" ++ kv.1 ++ "\x22," ++ stringifyCVal kv.2 ++ "]")) ++ "]"

/-- `configCacheKey(config)`: normalize the viewport, keep defined
entries, sort by key, serialize. -/
def configCacheKey (c : List (String × CVal)) : String :=
  stringifyEntries (List.insertionSort entryKeyLe (normalizedEntries c))

/-! ## The `/mcp` session cache (src/main.ts:323-409)

The cache maps config keys to server entries (entries are identifiers).
`createServer` and the post-insertion work (mutex acquire, transport
connect, request handling) are abstracted by their outcomes.  The
deletion guard in the catch block (`isNewEntry && !transport`) never
fires for post-insertion failures modelled here because the transport
is assigned before `connect`/`handleRequest` run. -/

/-- The HTTP response produced by the `/mcp` handler slice. -/
inductive McpHttpResponse where
  /-- 400 with jsonrpc error code -32602 and the construction error
  message. -/
  | badRequestConfigError (msg : String)
  | okHandled
  | internalError
deriving DecidableEq

/-- Cache plus response after one `/mcp` request. -/
structure McpStepResult where
  cache : List (String × Nat)
  response : McpHttpResponse
deriving DecidableEq

/-- One `/mcp` request against the session cache: on a cache miss,
`createServer(config)` runs inside its own try/catch — a throw answers
400 and returns before any cache insertion; on success the entry is
inserted and the remaining work (`laterOutcome`) runs.  On a cache hit
the construction step is skipped entirely. -/
def handleMcpRequest (cache : List (String × Nat)) (key : String)
    (constructOutcome : Except String Nat)
    (laterOutcome : Except String Unit) : McpStepResult :=
  match cache.lookup key with
  | some _ =>
    match laterOutcome with
    | .ok _ => { cache := cache, response := .okHandled }
    | .error _ => { cache := cache, response := .internalError }
  | none =>
    match constructOutcome with
    | .error e => { cache := cache, response := .badRequestConfigError e }
    | .ok s =>
      let cache' := (key, s) :: cache
      match laterOutcome with
      | .ok _ => { cache := cache', response := .okHandled }
      | .error _ => { cache := cache', response := .internalError }

/-! ## Dispatch serialization (src/main.ts:251-287 plus the Mutex)

Modelled from the spec: the repository imports `Mutex` from
`./Mutex.js`, whose implementation is not among the provided sources.
Spec §4.2 specifies "acquires an exclusive lock (FIFO ordering across
waiters — first acquire request granted first)… releases the lock on
every exit path… exactly once", and §9 prescribes the implementation
shape "an explicit waiter queue plus a locked flag".  The system below
is that mutex together with the callback's
`acquire` / `try … finally dispose` protocol from `registerTool`;
cooperative asynchronous execution makes each transition atomic. -/

/-- Where one tool call stands: not yet dispatched, queued on the mutex,
holding the lock (its handler is running), or completed. -/
inductive CallPhase where
  | idle
  | waiting
  | running
  | finished
deriving DecidableEq

/-- State of one session's dispatch: the mutex (`locked` flag plus FIFO
waiter queue), each call's phase, the order in which acquire requests
arrived, and the order in which calls were admitted past the lock. -/
structure MutexSystem where
  locked : Bool
  queue : List Nat
  phase : Nat → CallPhase
  arrived : List Nat
  admitted : List Nat

/-- No calls dispatched yet; the mutex is free. -/
def initSystem : MutexSystem :=
  { locked := false, queue := [], phase := fun _ => .idle,
    arrived := [], admitted := [] }

/-- `await toolMutex.acquire()` by call `c`: granted immediately when
the mutex is free, otherwise appended to the waiter queue. -/
def acquireStep (c : Nat) (σ : MutexSystem) : MutexSystem :=
  if σ.locked then
    { σ with
        queue := σ.queue ++ [c],
        phase := Function.update σ.phase c .waiting,
        arrived := σ.arrived ++ [c] }
  else
    { σ with
        locked := true,
        phase := Function.update σ.phase c .running,
        arrived := σ.arrived ++ [c],
        admitted := σ.admitted ++ [c] }

/-- Call `c` leaves its handler — `exitNormally` tells a normal return
from a thrown error, and the `finally` block disposes the guard
identically in both cases: the head waiter (if any) is granted the
lock, otherwise the mutex is freed. -/
def finishStep (c : Nat) (_exitNormally : Bool) (σ : MutexSystem) : MutexSystem :=
  match σ.queue with
  | [] =>
    { σ with locked := false, phase := Function.update σ.phase c .finished }
  | d :: rest =>
    { σ with
        queue := rest,
        phase := Function.update (Function.update σ.phase c .finished) d .running,
        admitted := σ.admitted ++ [d] }

/-- One scheduler transition: a fresh call requests the lock, or the
running call finishes (normally or with an error). -/
inductive DispatchStep : MutexSystem → MutexSystem → Prop where
  | acquire (c : Nat) (σ : MutexSystem) (hc : σ.phase c = .idle) :
      DispatchStep σ (acquireStep c σ)
  | finish (c : Nat) (ok : Bool) (σ : MutexSystem) (hc : σ.phase c = .running) :
      DispatchStep σ (finishStep c ok σ)

/-- States reachable from the initial dispatch state. -/
inductive ReachableSystem : MutexSystem → Prop where
  | init : ReachableSystem initSystem
  | step {σ σ' : MutexSystem} :
      ReachableSystem σ → DispatchStep σ σ' → ReachableSystem σ'

/-- The dispatch invariant: a free mutex has no running call and no
waiters; at most one call runs at a time; admissions followed by the
queue reproduce arrival order; queued calls are waiting and queued at
most once; a running call has been admitted past the lock. -/
def SystemInv (σ : MutexSystem) : Prop :=
  (σ.locked = false → ∀ c, σ.phase c ≠ .running) ∧
  (∀ c c', σ.phase c = .running → σ.phase c' = .running → c = c') ∧
  σ.arrived = σ.admitted ++ σ.queue ∧
  (σ.locked = false → σ.queue = []) ∧
  (∀ c ∈ σ.queue, σ.phase c = .waiting) ∧
  σ.queue.Nodup ∧
  (∀ c, σ.phase c = .running → c ∈ σ.admitted)

/-! ## Theorems -/

/-! ### Unfolding lemmas for the classifier traversals -/

theorem hasRecoverableCode_base (h : ErrHeap) (seen : List JsVal) (v : JsVal)
    (hcond : truthy v = false ∨ v ∈ seen) : hasRecoverableCode h seen v = false := by
  rw [hasRecoverableCode.eq_def, dif_pos hcond]

theorem hasRecoverableCode_obj (h : ErrHeap) (seen : List JsVal) (a : Nat) (o : ErrObj)
    (hnot : JsVal.obj a ∉ seen) (hget : h[a]? = some o) :
    hasRecoverableCode h seen (.obj a) =
      (if codeIsRecoverable o.code then true
       else if (match o.cause with
                | some c => truthy c && hasRecoverableCode h (JsVal.obj a :: seen) c
                | none => false) then true
       else if o.isError then messageMatches o.message else false) := by
  rw [hasRecoverableCode.eq_def]
  rw [dif_neg (by simp [truthy, hnot])]
  dsimp only
  rw [hget]

theorem hasRecoverableCode_objNone (h : ErrHeap) (seen : List JsVal) (a : Nat)
    (hget : h[a]? = none) : hasRecoverableCode h seen (.obj a) = false := by
  by_cases hcond : truthy (JsVal.obj a) = false ∨ JsVal.obj a ∈ seen
  · exact hasRecoverableCode_base h seen _ hcond
  · rw [hasRecoverableCode.eq_def, dif_neg hcond]
    dsimp only
    rw [hget]

theorem hasRecoverableCode_str (h : ErrHeap) (seen : List JsVal) (s : String)
    (hnot : truthy (JsVal.str s) = true ∧ JsVal.str s ∉ seen) :
    hasRecoverableCode h seen (.str s) = messageMatches s := by
  rw [hasRecoverableCode.eq_def]
  rw [dif_neg (by simp [hnot.1, hnot.2])]

theorem chainHasCode_base (h : ErrHeap) (seen : List JsVal) (v : JsVal)
    (hcond : truthy v = false ∨ v ∈ seen) : chainHasCode h seen v = false := by
  rw [chainHasCode.eq_def, dif_pos hcond]

theorem chainHasCode_str (h : ErrHeap) (seen : List JsVal) (s : String) :
    chainHasCode h seen (.str s) = false := by
  rw [chainHasCode.eq_def]
  split
  · rfl
  · dsimp only

theorem chainHasCode_prim (h : ErrHeap) (seen : List JsVal) (b : Bool) :
    chainHasCode h seen (.prim b) = false := by
  rw [chainHasCode.eq_def]
  split
  · rfl
  · dsimp only

theorem chainHasCode_objNone (h : ErrHeap) (seen : List JsVal) (a : Nat)
    (hget : h[a]? = none) : chainHasCode h seen (.obj a) = false := by
  by_cases hcond : truthy (JsVal.obj a) = false ∨ JsVal.obj a ∈ seen
  · exact chainHasCode_base h seen _ hcond
  · rw [chainHasCode.eq_def, dif_neg hcond]
    dsimp only
    rw [hget]

theorem chainHasCode_obj (h : ErrHeap) (seen : List JsVal) (a : Nat) (o : ErrObj)
    (hnot : JsVal.obj a ∉ seen) (hget : h[a]? = some o) :
    chainHasCode h seen (.obj a) =
      (codeIsRecoverable o.code ||
       (match o.cause with
        | some c => truthy c && chainHasCode h (JsVal.obj a :: seen) c
        | none => false)) := by
  rw [chainHasCode.eq_def]
  rw [dif_neg (by simp [truthy, hnot])]
  dsimp only
  rw [hget]

/-- A recoverable `code` anywhere along the cycle-protected cause chain
makes the classifier answer `true`, whatever the messages say. -/
theorem chain_code_implies_recoverable (h : ErrHeap) (seen : List JsVal) (v : JsVal)
    (hch : chainHasCode h seen v = true) : hasRecoverableCode h seen v = true := by
  by_cases hcond : truthy v = false ∨ v ∈ seen
  · rw [chainHasCode_base h seen v hcond] at hch
    cases hch
  · cases v with
    | str s =>
      rw [chainHasCode_str] at hch
      cases hch
    | prim b =>
      rw [chainHasCode_prim] at hch
      cases hch
    | obj a =>
      have hnot : JsVal.obj a ∉ seen := fun hm => hcond (Or.inr hm)
      cases hget : h[a]? with
      | none =>
        rw [chainHasCode_objNone h seen a hget] at hch
        cases hch
      | some o =>
        rw [chainHasCode_obj h seen a o hnot hget] at hch
        rw [hasRecoverableCode_obj h seen a o hnot hget]
        cases hcode : codeIsRecoverable o.code with
        | true => rw [if_pos (by simp [hcode])]
        | false =>
          rw [hcode, Bool.false_or] at hch
          cases hcause : o.cause with
          | none =>
            rw [hcause] at hch
            cases hch
          | some c =>
            rw [hcause] at hch
            have hc2 : truthy c = true ∧ chainHasCode h (JsVal.obj a :: seen) c = true := by
              simpa [Bool.and_eq_true] using hch
            have hrec := chain_code_implies_recoverable h (JsVal.obj a :: seen) c hc2.2
            rw [if_neg (by simp [hcode])]
            simp [hc2.1, hrec]
termination_by (unseenAddrs h seen).card
decreasing_by
  all_goals
  · have halt : a < h.length := (List.getElem?_eq_some.mp hget).1
    refine Finset.card_lt_card ⟨fun x hx => ?_, fun hsub => ?_⟩
    · simp only [unseenAddrs, Finset.mem_filter, Finset.mem_range, List.mem_cons] at hx ⊢
      exact ⟨hx.1, fun hmem => hx.2 (Or.inr hmem)⟩
    · have ha : a ∈ unseenAddrs h seen := by
        simp only [unseenAddrs, Finset.mem_filter, Finset.mem_range]
        exact ⟨halt, hnot⟩
      have ha' := hsub ha
      simp [unseenAddrs] at ha'

/-- A root `Error` object whose lower-cased message contains one of the
listed patterns is classified recoverable, whatever its code and cause
turn out to be. -/
theorem message_implies_recoverable (h : ErrHeap) (a : Nat) (o : ErrObj)
    (hget : h[a]? = some o) (hErr : o.isError = true)
    (hmsg : messageMatches o.message = true) :
    hasRecoverableCode h [] (.obj a) = true := by
  rw [hasRecoverableCode_obj h [] a o (by simp) hget]
  by_cases h1 : codeIsRecoverable o.code = true
  · rw [if_pos h1]
  · rw [if_neg h1]
    by_cases h2 : (match o.cause with
                   | some c => truthy c && hasRecoverableCode h (JsVal.obj a :: []) c
                   | none => false) = true
    · rw [if_pos h2]
    · rw [if_neg h2]
      simp [hErr, hmsg]

/-- C2: an error whose code, or the code of any error along its
cycle-protected cause chain, is one of the known connection-failure
codes is classified recoverable; an `Error` whose message contains,
case-insensitively, "failed to fetch" or "target closed" is classified
recoverable; and an `Error` with message "permission denied" and no
code, cause, or listed pattern is classified not recoverable. -/
theorem claim_C2_classifier :
    (∀ (h : ErrHeap) (e : JsVal), chainHasCode h [] e = true →
       isRecoverableBrowserConnectError h e = true) ∧
    (∀ (h : ErrHeap) (a : Nat) (o : ErrObj), h[a]? = some o → o.isError = true →
       (containsSubstr (strToLower o.message) "failed to fetch"
         || containsSubstr (strToLower o.message) "target closed") = true →
       isRecoverableBrowserConnectError h (.obj a) = true) ∧
    isRecoverableBrowserConnectError
      [{ code := none, cause := none, isError := true, message := "permission denied" }]
      (.obj 0) = false := by
  refine ⟨?_, ?_, ?_⟩
  · intro h e hch
    exact chain_code_implies_recoverable h [] e hch
  · intro h a o hget hErr hpat
    refine message_implies_recoverable h a o hget hErr ?_
    rcases Bool.or_eq_true_iff.mp hpat with h1 | h1
    · exact List.any_eq_true.mpr ⟨"failed to fetch", by simp [msgPatterns], h1⟩
    · exact List.any_eq_true.mpr ⟨"target closed", by simp [msgPatterns], h1⟩
  · rw [isRecoverableBrowserConnectError,
      hasRecoverableCode_obj _ [] 0
        { code := none, cause := none, isError := true, message := "permission denied" }
        (by simp) rfl]
    decide

/-- Witness for C2: the chain-code half applied to a two-object cyclic
cause chain whose second object carries `ECONNRESET`, and the
message-pattern half applied to an `Error` with a mixed-case
"Failed To Fetch" message. -/
theorem claim_C2_classifier_witness :
    isRecoverableBrowserConnectError
      [{ code := none, cause := some (.obj 1), isError := false, message := "outer" },
       { code := some "ECONNRESET", cause := some (.obj 0), isError := false, message := "inner" }]
      (.obj 0) = true ∧
    isRecoverableBrowserConnectError
      [{ code := none, cause := none, isError := true, message := "Mega Failed To Fetch resource" }]
      (.obj 0) = true := by
  constructor
  · refine claim_C2_classifier.1 _ _ ?_
    rw [chainHasCode_obj _ [] 0
        { code := none, cause := some (.obj 1), isError := false, message := "outer" }
        (by simp) rfl]
    dsimp only
    rw [chainHasCode_obj _ [JsVal.obj 0] 1
        { code := some "ECONNRESET", cause := some (.obj 0), isError := false, message := "inner" }
        (by decide) rfl]
    rw [show codeIsRecoverable (some "ECONNRESET") = true from by decide]
    simp [truthy]
  · exact claim_C2_classifier.2.1 _ 0
      { code := none, cause := none, isError := true, message := "Mega Failed To Fetch resource" }
      rfl rfl (by decide)

/-! ### The connect-or-launch fallback -/

theorem listLeads_append (p s t : List Char) (hl : listLeads p s = true) :
    listLeads p (s ++ t) = true := by
  induction p generalizing s with
  | nil => rfl
  | cons pc ps ih =>
    cases s with
    | nil => cases hl
    | cons c cs =>
      rw [List.cons_append]
      rw [listLeads] at hl ⊢
      rw [Bool.and_eq_true] at hl
      obtain ⟨h1, h2⟩ := hl
      rw [h1, ih cs h2]
      rfl

theorem strStartsWith_append (s t pat : String) (h : strStartsWith s pat = true) :
    strStartsWith (s ++ t) pat = true := by
  rw [strStartsWith] at h ⊢
  rw [String.data_append]
  exact listLeads_append _ _ _ h

/-- C3: with a remote URL supplied and no connected current handle, a
non-recoverable connect error is rethrown unchanged and launch is never
called, while a recoverable connect error leads to exactly one launch,
the launched handle as result, and exactly one log line starting
"Unable to connect". -/
theorem claim_C3_connect_fallback (h : ErrHeap) (url : String) (cur : Option (Nat × Bool))
    (e : JsVal) (lh : Nat) (hcur : connectedCurrent cur = none) :
    (isRecoverableBrowserConnectError h e = false →
       connectOrLaunchBrowser h (some url) cur (.error e) lh =
         { result := .error e, launchCount := 0, logs := [] }) ∧
    (isRecoverableBrowserConnectError h e = true →
       (connectOrLaunchBrowser h (some url) cur (.error e) lh).launchCount = 1 ∧
       (connectOrLaunchBrowser h (some url) cur (.error e) lh).result = .ok lh ∧
       ∃ line, (connectOrLaunchBrowser h (some url) cur (.error e) lh).logs = [line] ∧
         strStartsWith line "Unable to connect" = true) := by
  rw [connectOrLaunchBrowser, hcur]
  rw [show (some url : Option String) = some url from rfl]
  dsimp only [brokerResolve]
  constructor
  · intro hrec
    rw [if_neg (by simp [hrec])]
  · intro hrec
    rw [if_pos (by simp [hrec])]
    refine ⟨rfl, rfl, _, rfl, ?_⟩
    refine strStartsWith_append _ _ _ ?_
    refine strStartsWith_append _ _ _ ?_
    refine strStartsWith_append _ _ _ ?_
    refine strStartsWith_append _ _ _ ?_
    decide

/-- Witness for C3: a "permission denied" error is rethrown with zero
launches; an `ECONNREFUSED` error falls through to exactly one launch
with one "Unable to connect…" log line. -/
theorem claim_C3_connect_fallback_witness :
    (connectOrLaunchBrowser
        [{ code := none, cause := none, isError := true, message := "permission denied" }]
        (some "http://127.0.0.1:9222") none (.error (.obj 0)) 5 =
      { result := .error (.obj 0), launchCount := 0, logs := [] }) ∧
    ((connectOrLaunchBrowser
        [{ code := some "ECONNREFUSED", cause := none, isError := true, message := "connect ECONNREFUSED" }]
        (some "http://127.0.0.1:9222") none (.error (.obj 0)) 5).launchCount = 1) := by
  constructor
  · refine (claim_C3_connect_fallback _ _ none (.obj 0) 5 rfl).1 ?_
    rw [isRecoverableBrowserConnectError,
      hasRecoverableCode_obj _ [] 0
        { code := none, cause := none, isError := true, message := "permission denied" }
        (by simp) rfl]
    decide
  · refine ((claim_C3_connect_fallback _ _ none (.obj 0) 5 rfl).2 ?_).1
    rw [isRecoverableBrowserConnectError,
      hasRecoverableCode_obj _ [] 0
        { code := some "ECONNREFUSED", cause := none, isError := true, message := "connect ECONNREFUSED" }
        (by simp) rfl]
    decide

/-! ### Collector buffers at navigation boundaries -/

theorem lastIdxAux_mem {α : Type} (p : α → Bool) (l : List α) (k : Nat)
    (hk : lastIdxAux p l = some k) : ∃ x, l[k]? = some x ∧ p x = true := by
  induction l generalizing k with
  | nil => cases hk
  | cons a as ih =>
    rw [lastIdxAux] at hk
    cases hrec : lastIdxAux p as with
    | some i =>
      rw [hrec] at hk
      injection hk with hk'
      subst hk'
      obtain ⟨x, hx, hpx⟩ := ih i hrec
      exact ⟨x, by simpa using hx, hpx⟩
    | none =>
      rw [hrec] at hk
      by_cases hpa : p a = true
      · rw [if_pos hpa] at hk
        injection hk with hk'
        subst hk'
        exact ⟨a, by simp, hpa⟩
      · rw [if_neg hpa] at hk
        cases hk

theorem lastIdxAux_none_all (p : α → Bool) (l : List α)
    (hn : lastIdxAux p l = none) : ∀ x ∈ l, p x = false := by
  induction l with
  | nil => intro x hx; cases hx
  | cons a as ih =>
    intro x hx
    rw [lastIdxAux] at hn
    cases hrec : lastIdxAux p as with
    | some i => rw [hrec] at hn; cases hn
    | none =>
      rw [hrec] at hn
      by_cases hpa : p a = true
      · rw [if_pos hpa] at hn; cases hn
      · rw [if_neg hpa] at hn
        rcases List.mem_cons.mp hx with hcase | hcase
        · subst hcase
          exact Bool.eq_false_iff.mpr hpa
        · exact ih hrec x hcase

theorem lastIdxAux_last (p : α → Bool) (l : List α) (k : Nat)
    (hk : lastIdxAux p l = some k) :
    ∀ j x, k < j → l[j]? = some x → p x = false := by
  induction l generalizing k with
  | nil => intro j x _ hjx; cases hjx
  | cons a as ih =>
    intro j x hkj hjx
    rw [lastIdxAux] at hk
    cases hrec : lastIdxAux p as with
    | some i =>
      rw [hrec] at hk
      injection hk with hk'
      subst hk'
      cases j with
      | zero => omega
      | succ j' =>
        have hx' : as[j']? = some x := by simpa using hjx
        exact ih i hrec j' x (by omega) hx'
    | none =>
      rw [hrec] at hk
      by_cases hpa : p a = true
      · rw [if_pos hpa] at hk
        injection hk with hk'
        subst hk'
        cases j with
        | zero => omega
        | succ j' =>
          have hx' : as[j']? = some x := by simpa using hjx
          exact lastIdxAux_none_all p as hrec x (List.getElem?_mem hx')
      · rw [if_neg hpa] at hk
        cases hk

theorem lastIdxAux_eq_none (p : α → Bool) (l : List α)
    (hall : ∀ x ∈ l, p x = false) : lastIdxAux p l = none := by
  induction l with
  | nil => rfl
  | cons a as ih =>
    rw [lastIdxAux, ih (fun x hx => hall x (List.mem_cons_of_mem a hx))]
    rw [hall a (List.mem_cons_self a as)]
    rfl

theorem getArr_set_self {T : Type} (heap : List (List T)) (r : Nat) (x : List T)
    (hr : r < heap.length) : getArr (heap.set r x) r = x := by
  rw [getArr, List.getD_eq_getElem?_getD, List.getElem?_set_self (by simpa using hr)]
  rfl

theorem networkRetain_of_last (l : List NetReq) (k : Nat)
    (hk : lastIdxAux navRequestPred l = some k) : networkRetain l = l.drop k := by
  simp only [networkRetain, jsFindLastIndex, hk]
  congr 1
  omega

/-- C4: when a main-frame navigation commits, the network-specialized
collector keeps the buffer from the last main-frame navigation-request
entry (inclusive) onward and discards everything strictly before it; on
the concrete buffer [A(nav,main), B, C(nav,main), D] it retains [C, D]. -/
theorem claim_C4_network_retention :
    (∀ (l : List NetReq) (k : Nat), lastIdxAux navRequestPred l = some k →
       networkRetain l = l.drop k ∧
       (∃ x, l[k]? = some x ∧ navRequestPred x = true) ∧
       (∀ j x, k < j → l[j]? = some x → navRequestPred x = false)) ∧
    (∀ (s : CollectorState NetReq) (page r : Nat), s.pageRef.lookup page = some r →
       r < s.heap.length →
       getArr (handleFrameNavigated networkCleanupAfterNavigation s page true).heap r =
         networkRetain (getArr s.heap r) ∧
       (handleFrameNavigated networkCleanupAfterNavigation s page true).pageRef = s.pageRef) ∧
    networkRetain
      [{ requestId := 0, isNavigationRequest := true, frameIsMainFrame := true },
       { requestId := 1, isNavigationRequest := false, frameIsMainFrame := true },
       { requestId := 2, isNavigationRequest := true, frameIsMainFrame := true },
       { requestId := 3, isNavigationRequest := false, frameIsMainFrame := false }] =
      [{ requestId := 2, isNavigationRequest := true, frameIsMainFrame := true },
       { requestId := 3, isNavigationRequest := false, frameIsMainFrame := false }] := by
  refine ⟨?_, ?_, by decide⟩
  · intro l k hk
    exact ⟨networkRetain_of_last l k hk, lastIdxAux_mem _ l k hk, lastIdxAux_last _ l k hk⟩
  · intro s page r hlook hr
    rw [handleFrameNavigated, if_pos rfl, networkCleanupAfterNavigation, hlook]
    exact ⟨getArr_set_self s.heap r _ hr, rfl⟩

/-- Witness for C4: the general retention halves applied to the
four-element example buffer and to a one-page collector holding it. -/
theorem claim_C4_network_retention_witness :
    networkRetain
      [{ requestId := 0, isNavigationRequest := true, frameIsMainFrame := true },
       { requestId := 1, isNavigationRequest := false, frameIsMainFrame := true },
       { requestId := 2, isNavigationRequest := true, frameIsMainFrame := true },
       { requestId := 3, isNavigationRequest := false, frameIsMainFrame := false }] =
      List.drop 2
        [{ requestId := 0, isNavigationRequest := true, frameIsMainFrame := true },
         { requestId := 1, isNavigationRequest := false, frameIsMainFrame := true },
         { requestId := 2, isNavigationRequest := true, frameIsMainFrame := true },
         { requestId := 3, isNavigationRequest := false, frameIsMainFrame := false }] ∧
    getArr (handleFrameNavigated networkCleanupAfterNavigation
        { pageRef := [(7, 0)],
          heap := [[{ requestId := 0, isNavigationRequest := true, frameIsMainFrame := true }]] }
        7 true).heap 0 =
      networkRetain [{ requestId := 0, isNavigationRequest := true, frameIsMainFrame := true }] :=
  ⟨(claim_C4_network_retention.1 _ 2 (by decide)).1,
   (claim_C4_network_retention.2.1 _ 7 0 (by decide) (by decide)).1⟩

/-- C10 (implicit): if the buffer holds no main-frame navigation-request
entry at all, the network cleanup splices zero elements — the buffer is
left entirely unchanged, not cleared. -/
theorem claim_C10_network_no_nav_noop (l : List NetReq)
    (hall : ∀ x ∈ l, navRequestPred x = false) :
    networkRetain l = l ∧
    (∀ (s : CollectorState NetReq) (page r : Nat), s.pageRef.lookup page = some r →
       r < s.heap.length → getArr s.heap r = l →
       getArr (handleFrameNavigated networkCleanupAfterNavigation s page true).heap r = l ∧
       (handleFrameNavigated networkCleanupAfterNavigation s page true).pageRef = s.pageRef) := by
  have hret : networkRetain l = l := by
    simp only [networkRetain, jsFindLastIndex, lastIdxAux_eq_none _ l hall]
    rfl
  refine ⟨hret, ?_⟩
  intro s page r hlook hr hbuf
  rw [handleFrameNavigated, if_pos rfl, networkCleanupAfterNavigation, hlook]
  refine ⟨?_, rfl⟩
  rw [getArr_set_self s.heap r _ hr, hbuf, hret]

/-- Witness for C10: a buffer of one sub-frame request and one non-nav
main-frame request survives a navigation commit untouched. -/
theorem claim_C10_network_no_nav_noop_witness :
    networkRetain
      [{ requestId := 4, isNavigationRequest := true, frameIsMainFrame := false },
       { requestId := 5, isNavigationRequest := false, frameIsMainFrame := true }] =
      [{ requestId := 4, isNavigationRequest := true, frameIsMainFrame := false },
       { requestId := 5, isNavigationRequest := false, frameIsMainFrame := true }] :=
  (claim_C10_network_no_nav_noop _ (by decide)).1

/-- C5: a main-frame navigation commit clears the default collector's
buffer to empty in place — the page still maps to the same array
reference, whose contents are now empty, so a reference obtained via
`getData` before the navigation observes the cleared state — while a
sub-frame navigation leaves the state untouched; and the concrete
e1,e2,e3 run behaves accordingly. -/
theorem claim_C5_default_clear_in_place :
    (∀ (T : Type) (s : CollectorState T) (page r : Nat),
       getDataRef s page = some r → r < s.heap.length →
       (handleFrameNavigated cleanupAfterNavigation s page true).pageRef = s.pageRef ∧
       getDataRef (handleFrameNavigated cleanupAfterNavigation s page true) page = some r ∧
       getArr (handleFrameNavigated cleanupAfterNavigation s page true).heap r = [] ∧
       handleFrameNavigated (T := T) cleanupAfterNavigation s page false = s) ∧
    (getDataRef (collectEvent (collectEvent (collectEvent
        (initializePage ({ pageRef := [], heap := [] } : CollectorState Nat) 7) 7 1) 7 2) 7 3) 7 =
      some 0 ∧
     getDataValue (collectEvent (collectEvent (collectEvent
        (initializePage ({ pageRef := [], heap := [] } : CollectorState Nat) 7) 7 1) 7 2) 7 3) 7 =
      [1, 2, 3] ∧
     getDataRef (handleFrameNavigated cleanupAfterNavigation
        (collectEvent (collectEvent (collectEvent
          (initializePage ({ pageRef := [], heap := [] } : CollectorState Nat) 7) 7 1) 7 2) 7 3)
        7 true) 7 = some 0 ∧
     getDataValue (handleFrameNavigated cleanupAfterNavigation
        (collectEvent (collectEvent (collectEvent
          (initializePage ({ pageRef := [], heap := [] } : CollectorState Nat) 7) 7 1) 7 2) 7 3)
        7 true) 7 = []) := by
  constructor
  · intro T s page r href hr
    rw [handleFrameNavigated, if_pos rfl, cleanupAfterNavigation]
    rw [getDataRef] at href
    rw [href]
    refine ⟨rfl, ?_, ?_, ?_⟩
    · rw [getDataRef]
      exact href
    · exact getArr_set_self s.heap r _ hr
    · rw [handleFrameNavigated]
      rfl
  · decide

/-- Witness for C5: the universal half applied to a concrete one-page
collector state. -/
theorem claim_C5_default_clear_in_place_witness :
    getArr (handleFrameNavigated cleanupAfterNavigation
      ({ pageRef := [(7, 0)], heap := [[1, 2, 3]] } : CollectorState Nat) 7 true).heap 0 = [] :=
  ((claim_C5_default_clear_in_place.1 Nat
      { pageRef := [(7, 0)], heap := [[1, 2, 3]] } 7 0 (by decide) (by decide)).2.2).1

/-! ### The dispatch callback's error boundary -/

/-- Counterexample to C6 as stated: when the tool handler throws
("handler boom"), the registered callback does not return an
error-flagged structured reply — the error propagates out of the
callback (only `response.handle` is wrapped in the inner try/catch). -/
theorem claim_C6_counterexample :
    (toolCallback (.ok ()) (.error "handler boom") (.ok ["fine"])).outcome =
      .error "handler boom" := rfl

/-- C6 (amended): a finalization (`response.handle`) error is caught at
the dispatch boundary and converted into a reply with `isError` set and
the error text as content; a context or handler error instead
propagates out of the registered callback; the mutex guard is disposed
on every exit path. -/
theorem claim_C6_dispatch_errors (contextOutcome handlerOutcome : Except String Unit)
    (finalizeOutcome : Except String (List String)) :
    ((toolCallback contextOutcome handlerOutcome finalizeOutcome).guardDisposed = true) ∧
    (∀ e, contextOutcome = .ok () → handlerOutcome = .ok () → finalizeOutcome = .error e →
       (toolCallback contextOutcome handlerOutcome finalizeOutcome).outcome =
         .ok { contentTexts := [e], isError := true }) ∧
    (∀ content, contextOutcome = .ok () → handlerOutcome = .ok () →
       finalizeOutcome = .ok content →
       (toolCallback contextOutcome handlerOutcome finalizeOutcome).outcome =
         .ok { contentTexts := content, isError := false }) ∧
    (∀ e, contextOutcome = .ok () → handlerOutcome = .error e →
       (toolCallback contextOutcome handlerOutcome finalizeOutcome).outcome = .error e) ∧
    (∀ e, contextOutcome = .error e →
       (toolCallback contextOutcome handlerOutcome finalizeOutcome).outcome = .error e) := by
  refine ⟨?_, ?_, ?_, ?_, ?_⟩
  · cases contextOutcome with
    | error e => rfl
    | ok u =>
      cases handlerOutcome with
      | error e => rfl
      | ok u' => cases finalizeOutcome <;> rfl
  · intro e hc hh hf
    subst hc; subst hh; subst hf
    rfl
  · intro content hc hh hf
    subst hc; subst hh; subst hf
    rfl
  · intro e hc hh
    subst hc; subst hh
    rfl
  · intro e hc
    subst hc
    rfl

/-- Witness for C6 (amended): concrete finalization failure, success,
and handler failure runs. -/
theorem claim_C6_dispatch_errors_witness :
    (toolCallback (.ok ()) (.ok ()) (.error "finalize boom")).outcome =
      .ok { contentTexts := ["finalize boom"], isError := true } ∧
    (toolCallback (.ok ()) (.ok ()) (.ok ["page loaded"])).outcome =
      .ok { contentTexts := ["page loaded"], isError := false } ∧
    (toolCallback (.ok ()) (.ok ()) (.error "finalize boom")).guardDisposed = true :=
  ⟨(claim_C6_dispatch_errors (.ok ()) (.ok ()) (.error "finalize boom")).2.1
      "finalize boom" rfl rfl rfl,
   (claim_C6_dispatch_errors (.ok ()) (.ok ()) (.ok ["page loaded"])).2.2.1
      ["page loaded"] rfl rfl rfl,
   (claim_C6_dispatch_errors (.ok ()) (.ok ()) (.error "finalize boom")).1⟩

/-! ### Stealth installation idempotence -/

/-- C7: `enableStealthMode` is idempotent per handle — any positive
number of calls equals one call; the first call on a fresh handle sets
the guard flag, applies stealth to the existing pages, and installs
exactly one `targetcreated` subscription; every later call returns
without re-installing. -/
theorem claim_C7_stealth_idempotent (b : BrowserHandle) (n : Nat) (hn : 1 ≤ n) :
    Nat.iterate enableStealthMode n b = enableStealthMode b ∧
    (b.stealth = false →
       (enableStealthMode b).stealth = true ∧
       (enableStealthMode b).targetCreatedListeners = b.targetCreatedListeners + 1 ∧
       (enableStealthMode b).stealthAppliedTo = b.stealthAppliedTo ++ b.pages) ∧
    (b.stealth = true → enableStealthMode b = b) := by
  have hflag : ∀ c : BrowserHandle, (enableStealthMode c).stealth = true := by
    intro c
    rw [enableStealthMode]
    by_cases hc : c.stealth = true
    · rw [if_pos hc]
      exact hc
    · rw [if_neg hc]
  have hidem : enableStealthMode (enableStealthMode b) = enableStealthMode b := by
    conv_lhs => rw [enableStealthMode]
    rw [if_pos (hflag b)]
  refine ⟨?_, ?_, ?_⟩
  · obtain ⟨m, rfl⟩ : ∃ m, n = m + 1 := ⟨n - 1, by omega⟩
    clear hn
    induction m with
    | zero => rfl
    | succ m ih =>
      rw [Function.iterate_succ_apply', ih, hidem]
  · intro hb
    rw [enableStealthMode, if_neg (by simp [hb])]
    exact ⟨rfl, rfl, rfl⟩
  · intro hb
    rw [enableStealthMode, if_pos hb]

/-- Witness for C7: three consecutive calls on a fresh handle with two
open pages install exactly one listener and apply stealth once to both
pages. -/
theorem claim_C7_stealth_idempotent_witness :
    Nat.iterate enableStealthMode 3
        { stealth := false, pages := [4, 9], stealthAppliedTo := [],
          targetCreatedListeners := 0 } =
      enableStealthMode
        { stealth := false, pages := [4, 9], stealthAppliedTo := [],
          targetCreatedListeners := 0 } ∧
    (enableStealthMode
        { stealth := false, pages := [4, 9], stealthAppliedTo := [],
          targetCreatedListeners := 0 }).targetCreatedListeners = 1 :=
  ⟨(claim_C7_stealth_idempotent _ 3 (by decide)).1,
   ((claim_C7_stealth_idempotent
        { stealth := false, pages := [4, 9], stealthAppliedTo := [],
          targetCreatedListeners := 0 } 1 (by decide)).2.1 rfl).2.1⟩

/-! ### Session-cache construction atomicity -/

/-- C9: on a cache miss, a throwing `createServer` answers a structured
400 configuration error and leaves the cache without any entry for the
key; an entry for the key exists afterwards exactly when construction
succeeded, and it is the constructed server. -/
theorem claim_C9_session_cache_atomic (cache : List (String × Nat)) (key : String)
    (constructOutcome : Except String Nat) (laterOutcome : Except String Unit)
    (hmiss : cache.lookup key = none) :
    (∀ e, constructOutcome = .error e →
       (handleMcpRequest cache key constructOutcome laterOutcome).cache = cache ∧
       (handleMcpRequest cache key constructOutcome laterOutcome).cache.lookup key = none ∧
       (handleMcpRequest cache key constructOutcome laterOutcome).response =
         .badRequestConfigError e) ∧
    (∀ s, constructOutcome = .ok s →
       (handleMcpRequest cache key constructOutcome laterOutcome).cache.lookup key = some s) := by
  constructor
  · intro e hco
    subst hco
    rw [handleMcpRequest.eq_def, hmiss]
    exact ⟨rfl, hmiss, rfl⟩
  · intro s hco
    subst hco
    rw [handleMcpRequest.eq_def, hmiss]
    cases laterOutcome with
    | ok u => simp [List.lookup]
    | error e => simp [List.lookup]

/-- Witness for C9: a failing construction on an empty cache caches
nothing and answers the structured error; a succeeding one caches the
server. -/
theorem claim_C9_session_cache_atomic_witness :
    (handleMcpRequest [] "cfg" (.error "no chrome") (.ok ())).cache = [] ∧
    (handleMcpRequest [] "cfg" (.error "no chrome") (.ok ())).response =
      .badRequestConfigError "no chrome" ∧
    (handleMcpRequest [] "cfg" (.ok 3) (.ok ())).cache.lookup "cfg" = some 3 :=
  ⟨((claim_C9_session_cache_atomic [] "cfg" (.error "no chrome") (.ok ()) rfl).1
      "no chrome" rfl).1,
   ((claim_C9_session_cache_atomic [] "cfg" (.error "no chrome") (.ok ()) rfl).1
      "no chrome" rfl).2.2,
   (claim_C9_session_cache_atomic [] "cfg" (.ok 3) (.ok ()) rfl).2 3 rfl⟩

/-! ### Cache-key canonicity -/

/-- C8: two configurations holding the same defined key-value pairs
(after viewport normalization), in whatever order, produce the same
cache-key string — so both map to the same cached session entry. -/
theorem claim_C8_config_key_order_independent (c₁ c₂ : List (String × CVal))
    (hnd : (normalizedEntries c₁).Pairwise (fun a b => a.1 ≠ b.1))
    (hperm : (normalizedEntries c₁).Perm (normalizedEntries c₂)) :
    configCacheKey c₁ = configCacheKey c₂ := by
  have hsym : ∀ {x y : String × CVal}, x.1 ≠ y.1 → y.1 ≠ x.1 := fun hxy => hxy.symm
  have hsp : List.Perm (List.insertionSort entryKeyLe (normalizedEntries c₁))
      (List.insertionSort entryKeyLe (normalizedEntries c₂)) :=
    ((List.perm_insertionSort entryKeyLe _).trans hperm).trans
      (List.perm_insertionSort entryKeyLe _).symm
  have hnds₁ : (List.insertionSort entryKeyLe (normalizedEntries c₁)).Pairwise
      (fun a b => a.1 ≠ b.1) :=
    ((List.perm_insertionSort entryKeyLe _).pairwise_iff hsym).mpr hnd
  have hnds₂ : (List.insertionSort entryKeyLe (normalizedEntries c₂)).Pairwise
      (fun a b => a.1 ≠ b.1) :=
    ((List.perm_insertionSort entryKeyLe _).pairwise_iff hsym).mpr
      ((hperm.pairwise_iff hsym).mp hnd)
  have hlt₁ : List.Sorted entryKeyLt (List.insertionSort entryKeyLe (normalizedEntries c₁)) :=
    ((List.sorted_insertionSort entryKeyLe _).and hnds₁).imp
      (fun hab => lt_of_le_of_ne hab.1 hab.2)
  have hlt₂ : List.Sorted entryKeyLt (List.insertionSort entryKeyLe (normalizedEntries c₂)) :=
    ((List.sorted_insertionSort entryKeyLe _).and hnds₂).imp
      (fun hab => lt_of_le_of_ne hab.1 hab.2)
  have heq := List.eq_of_perm_of_sorted hsp hlt₁ hlt₂
  rw [configCacheKey, configCacheKey, heq]

/-- Witness for C8: the same two defined properties supplied in either
order — with the viewport once in object form and once as its
`WIDTHxHEIGHT` string — give one cache key. -/
theorem claim_C8_config_key_order_independent_witness :
    configCacheKey [("viewport", .vp 1280 720), ("headless", .boolean true)] =
      configCacheKey [("headless", .boolean true), ("viewport", .str "1280x720")] :=
  claim_C8_config_key_order_independent _ _ (by decide) (by decide)

/-! ### Dispatch serialization -/

theorem systemInv_init : SystemInv initSystem := by
  refine ⟨fun _ c h => ?_, fun c c' hc _ => ?_, rfl, fun _ => rfl, fun c hc => ?_,
    List.nodup_nil, fun c hc => ?_⟩
  · simp [initSystem] at h
  · simp [initSystem] at hc
  · simp [initSystem] at hc
  · simp [initSystem] at hc

theorem systemInv_acquire {σ : MutexSystem} (hinv : SystemInv σ) (c : Nat)
    (hc : σ.phase c = .idle) : SystemInv (acquireStep c σ) := by
  obtain ⟨h1, h2, h3, h4, h5, h6, h7⟩ := hinv
  have hcq : c ∉ σ.queue := fun hmem => by
    have hw := h5 c hmem
    rw [hc] at hw
    cases hw
  by_cases hl : σ.locked = true
  · rw [acquireStep, if_pos hl]
    dsimp only [SystemInv]
    refine ⟨?_, ?_, ?_, ?_, ?_, ?_, ?_⟩
    · intro hf
      rw [hl] at hf
      exact absurd hf (by decide)
    · intro x y hx hy
      by_cases hxc : x = c
      · subst hxc
        rw [Function.update_same] at hx
        exact absurd hx (by decide)
      · rw [Function.update_noteq hxc] at hx
        by_cases hyc : y = c
        · subst hyc
          rw [Function.update_same] at hy
          exact absurd hy (by decide)
        · rw [Function.update_noteq hyc] at hy
          exact h2 x y hx hy
    · rw [h3, List.append_assoc]
    · intro hf
      rw [hl] at hf
      exact absurd hf (by decide)
    · intro x hx
      rcases List.mem_append.mp hx with hx' | hx'
      · have hne : x ≠ c := fun he => hcq (he ▸ hx')
        rw [Function.update_noteq hne]
        exact h5 x hx'
      · have hxe : x = c := by simpa using hx'
        subst hxe
        rw [Function.update_same]
    · refine List.Nodup.append h6 (List.nodup_singleton c) ?_
      intro x hx hx'
      have hxe : x = c := by simpa using hx'
      exact hcq (hxe ▸ hx)
    · intro x hx
      by_cases hxc : x = c
      · subst hxc
        rw [Function.update_same] at hx
        exact absurd hx (by decide)
      · rw [Function.update_noteq hxc] at hx
        exact h7 x hx
  · have hlf : σ.locked = false := by
      cases hb : σ.locked
      · rfl
      · exact absurd hb hl
    have hqe : σ.queue = [] := h4 hlf
    rw [acquireStep, if_neg hl]
    dsimp only [SystemInv]
    refine ⟨?_, ?_, ?_, ?_, ?_, ?_, ?_⟩
    · intro hf
      exact absurd hf (by decide)
    · intro x y hx hy
      by_cases hxc : x = c
      · by_cases hyc : y = c
        · rw [hxc, hyc]
        · rw [Function.update_noteq hyc] at hy
          exact absurd hy (h1 hlf y)
      · rw [Function.update_noteq hxc] at hx
        exact absurd hx (h1 hlf x)
    · rw [h3, hqe]
      simp
    · intro hf
      exact absurd hf (by decide)
    · intro x hx
      rw [hqe] at hx
      cases hx
    · exact h6
    · intro x hx
      by_cases hxc : x = c
      · subst hxc
        simp
      · rw [Function.update_noteq hxc] at hx
        exact absurd hx (h1 hlf x)

theorem systemInv_finish {σ : MutexSystem} (hinv : SystemInv σ) (c : Nat) (ok : Bool)
    (hc : σ.phase c = .running) : SystemInv (finishStep c ok σ) := by
  obtain ⟨h1, h2, h3, h4, h5, h6, h7⟩ := hinv
  have hlock : σ.locked = true := by
    cases hb : σ.locked
    · exact absurd hc (h1 hb c)
    · rfl
  have hcq : c ∉ σ.queue := fun hmem => by
    have hw := h5 c hmem
    rw [hc] at hw
    cases hw
  cases hq : σ.queue with
  | nil =>
    rw [finishStep.eq_def, hq]
    dsimp only [SystemInv]
    have hnr : ∀ x, Function.update σ.phase c .finished x ≠ .running := by
      intro x hx
      by_cases hxc : x = c
      · subst hxc
        rw [Function.update_same] at hx
        exact absurd hx (by decide)
      · rw [Function.update_noteq hxc] at hx
        exact hxc (h2 x c hx hc)
    refine ⟨fun _ x => hnr x, ?_, ?_, fun _ => rfl, ?_, List.nodup_nil, ?_⟩
    · intro x y hx _
      exact absurd hx (hnr x)
    · rw [h3, hq]
    · intro x hx
      cases hx
    · intro x hx
      exact absurd hx (hnr x)
  | cons d rest =>
    have hd : σ.phase d = .waiting := h5 d (by rw [hq]; exact List.mem_cons_self d rest)
    have hdc : d ≠ c := fun he => by
      rw [he, hc] at hd
      cases hd
    have hnodup := h6
    rw [hq, List.nodup_cons] at hnodup
    have hcrest : c ∉ rest := fun hm => hcq (by rw [hq]; exact List.mem_cons_of_mem d hm)
    rw [finishStep.eq_def, hq]
    dsimp only [SystemInv]
    have hrun : ∀ x, Function.update (Function.update σ.phase c .finished) d .running x =
        .running → x = d := by
      intro x hx
      by_cases hxd : x = d
      · exact hxd
      · rw [Function.update_noteq hxd] at hx
        by_cases hxc : x = c
        · subst hxc
          rw [Function.update_same] at hx
          exact absurd hx (by decide)
        · rw [Function.update_noteq hxc] at hx
          exact absurd (h2 x c hx hc) hxc
    refine ⟨?_, ?_, ?_, ?_, ?_, ?_, ?_⟩
    · intro hf
      rw [hlock] at hf
      exact absurd hf (by decide)
    · intro x y hx hy
      rw [hrun x hx, hrun y hy]
    · rw [h3, hq]
      simp
    · intro hf
      rw [hlock] at hf
      exact absurd hf (by decide)
    · intro x hx
      have hxd : x ≠ d := fun he => hnodup.1 (he ▸ hx)
      have hxc : x ≠ c := fun he => hcrest (he ▸ hx)
      rw [Function.update_noteq hxd, Function.update_noteq hxc]
      exact h5 x (by rw [hq]; exact List.mem_cons_of_mem d hx)
    · exact hnodup.2
    · intro x hx
      rw [hrun x hx]
      simp

theorem systemInv_reachable (σ : MutexSystem) (hr : ReachableSystem σ) : SystemInv σ := by
  induction hr with
  | init => exact systemInv_init
  | step _ hs ih =>
    cases hs with
    | acquire c σ' hc => exact systemInv_acquire ih c hc
    | finish c ok σ' hc => exact systemInv_finish ih c ok hc

/-- C1: in every reachable dispatch state, at most one call holds the
lock (no two handler invocations overlap); a running call was admitted
through `acquire`; admissions followed by the waiter queue reproduce
lock-acquisition arrival order (FIFO admission); and finishing disposes
the guard identically on a normal return and on a thrown error. -/
theorem claim_C1_dispatch_serialization (σ : MutexSystem) (hr : ReachableSystem σ) :
    (∀ c c', σ.phase c = .running → σ.phase c' = .running → c = c') ∧
    (∀ c, σ.phase c = .running → c ∈ σ.admitted) ∧
    σ.arrived = σ.admitted ++ σ.queue ∧
    (∀ c ok ok', finishStep c ok σ = finishStep c ok' σ) := by
  obtain ⟨h1, h2, h3, h4, h5, h6, h7⟩ := systemInv_reachable σ hr
  exact ⟨h2, h7, h3, fun _ _ _ => rfl⟩

/-- Witness for C1: the state after call 0 is granted the lock and call
1 queues behind it — reachable in two steps from the initial state. -/
theorem claim_C1_dispatch_serialization_witness :
    (∀ c c', (acquireStep 1 (acquireStep 0 initSystem)).phase c = .running →
       (acquireStep 1 (acquireStep 0 initSystem)).phase c' = .running → c = c') ∧
    (∀ c, (acquireStep 1 (acquireStep 0 initSystem)).phase c = .running →
       c ∈ (acquireStep 1 (acquireStep 0 initSystem)).admitted) ∧
    (acquireStep 1 (acquireStep 0 initSystem)).arrived =
      (acquireStep 1 (acquireStep 0 initSystem)).admitted ++
        (acquireStep 1 (acquireStep 0 initSystem)).queue ∧
    (∀ c ok ok', finishStep c ok (acquireStep 1 (acquireStep 0 initSystem)) =
       finishStep c ok' (acquireStep 1 (acquireStep 0 initSystem))) :=
  claim_C1_dispatch_serialization (acquireStep 1 (acquireStep 0 initSystem))
    (ReachableSystem.step
      (ReachableSystem.step ReachableSystem.init (DispatchStep.acquire 0 initSystem rfl))
      (DispatchStep.acquire 1 (acquireStep 0 initSystem) (by decide)))

end ChromeDevtoolsMcp
